import Mathlib

/-!
Verification of the Figma plugin logger server (logger_server.py).

Strings from the Python code are modelled as lists of characters, byte
strings as lists of naturals below 256, the media directory as an
association list from file names to byte contents, and the JSON log file
as the list of its records.  The two handlers `log_generation`
(POST /log) and `get_logs` (GET /logs) are translated directly from the
source; `base64.b64decode` is modelled by the character-level state
machine of binascii.a2b_base64 in its default non-strict mode, checked
against the CPython implementation, and `base64.b64encode` by the
standard encoder.
-/

set_option maxRecDepth 4000

abbrev Str := List Char

/-- Untyped JSON value, used for the opaque payload fields
`figmaDOM`, `descriptionAPI` and `generationAPI`. -/
inductive Json where
  | null : Json
  | bool (b : Bool) : Json
  | num (n : Int) : Json
  | str (s : Str) : Json
  | arr (items : List Json) : Json
  | obj (members : List (Str × Json)) : Json

/-- Request body of POST /log (Pydantic model GenerationLog).  The
`screenshots` field is a dictionary from string keys to optional
strings, modelled as an association list. -/
structure GenerationLog where
  timestamp : Str
  designPrompt : Str
  figmaDOM : Json
  descriptionAPI : Option Json
  generationAPI : Option Json
  screenshots : List (Str × Option Str)

/-- One record of the generation_logs.json file: the submitted log with
each screenshot value replaced by a relative file path or null. -/
structure LogEntry where
  timestamp : Str
  designPrompt : Str
  figmaDOM : Json
  descriptionAPI : Option Json
  generationAPI : Option Json
  screenshots_before : Option Str
  screenshots_after : Option Str

/-- Media directory contents: file path paired with written bytes. -/
abbrev MediaStore := List (Str × List Nat)

/-- Server state: the parsed log file plus the media directory. -/
structure ServerState where
  logs : List LogEntry
  media : MediaStore

/-- Successful response body of POST /log. -/
structure SubmitResponse where
  status : Str
  message : Str
  logIndex : Nat
  timestamp : Str

/-- Response body of GET /logs. -/
structure LogsResponse where
  total : Nat
  logs : List LogEntry

/-! Path constants, mirroring the os.path.join calls at module top. -/

def pathJoin (a b : Str) : Str := a ++ '/' :: b

/-- Abstract stand-in for os.path.dirname(os.path.abspath(`__file__`)). -/
def SCRIPT_DIR : Str := "SCRIPT_DIR".toList

def LOGGER_DIR : Str := pathJoin (pathJoin SCRIPT_DIR "..".toList) "logger_data".toList

def MEDIA_DIR : Str := pathJoin LOGGER_DIR "media".toList

def LOG_FILE : Str := pathJoin LOGGER_DIR "generation_logs.json".toList

def mediaPath (fname : Str) : Str := pathJoin MEDIA_DIR fname

/-! Model of the Python standard library base64 module. -/

def b64Alphabet : List Char :=
  "ABCDEFGHIJKLMNOPQRSTUVWXYZabcdefghijklmnopqrstuvwxyz0123456789+/".toList

/-- Index of a character in the base64 alphabet, none if absent. -/
def charIdx (c : Char) : Option Nat :=
  b64Alphabet.findIdx? (fun a => a == c)

/-- Character of the base64 alphabet at a given index. -/
def b64char (n : Nat) : Char := b64Alphabet.getD n 'A'

/-- Exceptions raised by binascii.a2b_base64: input ending at quad
position one raises the invalid-length error (number of data characters
cannot be one more than a multiple of four); positions two and three
raise the incorrect-padding error. -/
inductive B64Error where
  | invalidLength : B64Error
  | incorrectPadding : B64Error
deriving DecidableEq

/-- State machine of binascii.a2b_base64 in non-strict mode, the
decoder behind base64.b64decode.  Characters outside the alphabet are
skipped; a pad character is skipped too, unless the quad position is at
least two and the pad run completes the quad, which ends decoding and
ignores all remaining input; a pad run survives skipped foreign
characters and is reset by a data character; input ending at a nonzero
quad position is an error. -/
def b64decodeLoop : List Char → Nat → Nat → Nat → List Nat →
    Except B64Error (List Nat)
  | [], quad_pos, _, _, acc =>
    if quad_pos = 0 then Except.ok acc.reverse
    else if quad_pos = 1 then Except.error B64Error.invalidLength
    else Except.error B64Error.incorrectPadding
  | c :: rest, quad_pos, leftchar, pads, acc =>
    if c = '=' then
      if 2 ≤ quad_pos ∧ 4 ≤ quad_pos + pads + 1 then Except.ok acc.reverse
      else b64decodeLoop rest quad_pos leftchar
        (if 2 ≤ quad_pos then pads + 1 else pads) acc
    else
      match charIdx c with
      | none => b64decodeLoop rest quad_pos leftchar pads acc
      | some d =>
        match quad_pos with
        | 0 => b64decodeLoop rest 1 d 0 acc
        | 1 => b64decodeLoop rest 2 (d % 16) 0 ((leftchar * 4 + d / 16) :: acc)
        | 2 => b64decodeLoop rest 3 (d % 4) 0 ((leftchar * 16 + d / 4) :: acc)
        | _ => b64decodeLoop rest 0 0 0 ((leftchar * 64 + d) :: acc)

/-- Model of base64.b64decode; the error value models the raised
binascii.Error. -/
def b64decode (s : Str) : Except B64Error (List Nat) := b64decodeLoop s 0 0 0 []

/-- Model of base64.b64encode on a byte string. -/
def b64encode : List Nat → Str
  | [] => []
  | [a] => [b64char (a / 4), b64char (a % 4 * 16), '=', '=']
  | [a, b] => [b64char (a / 4), b64char (a % 4 * 16 + b / 16),
               b64char (b % 16 * 4), '=']
  | a :: b :: c :: rest =>
    b64char (a / 4) :: b64char (a % 4 * 16 + b / 16) ::
    b64char (b % 16 * 4 + c / 64) :: b64char (c % 64) :: b64encode rest

/-! Model of Python string primitives used by the handler. -/

/-- Model of str.split(sep) for a one-character separator: every
occurrence splits, so the result has one more part than separators. -/
def pySplit (sep : Char) : Str → List Str
  | [] => [[]]
  | c :: rest =>
    if c = sep then [] :: pySplit sep rest
    else
      match pySplit sep rest with
      | h :: t => (c :: h) :: t
      | [] => [[c]]

/-- Model of str.replace for one-character patterns. -/
def replaceChar (pat sub : Char) (s : Str) : Str :=
  s.map fun c => if c = pat then sub else c

/-- Sanitized timestamp token,
log.timestamp.replace(t1, t2)...[:19] from the source. -/
def sanitizeTimestamp (ts : Str) : Str :=
  (replaceChar 'T' '_' (replaceChar '.' '-' (replaceChar ':' '-' ts))).take 19

/-- Base64 payload selection from the source:
s.split(sep)[1] if sep in s else s. -/
def extract_base64 (s : Str) : Str :=
  if ',' ∈ s then (pySplit ',' s).getD 1 [] else s

/-- Truthiness of an optional string, as tested by
`if log.screenshots.get(slot):` in the source. -/
def strTruthy : Option Str → Bool
  | some s => !s.isEmpty
  | none => false

/-- Model of dict.get on the screenshots dictionary: a missing key and
an explicit null both yield none. -/
def dictGet (d : List (Str × Option Str)) (k : Str) : Option Str :=
  match d.lookup k with
  | some v => v
  | none => none

/-- Model of open(path, mode).write(bytes): an existing file at the
same path is overwritten. -/
def writeFile (fs : MediaStore) (name : Str) (content : List Nat) : MediaStore :=
  fs.filter (fun e => e.1 != name) ++ [(name, content)]

def beforeKey : Str := "before".toList
def afterKey : Str := "after".toList
def pngExt : Str := ".png".toList
def mediaRelDir : Str := "media/".toList

/-- File name component written for one screenshot slot,
the f-string in the source. -/
def slotFileName (token slot : Str) : Str := token ++ '-' :: slot ++ pngExt

/-- One screenshot-processing block of the submission handler: when the
slot value is truthy, strip the optional data-URI prefix, decode, write
the bytes to the media directory and return the relative path; a decode
failure is an error, a falsy value leaves everything untouched. -/
def saveScreenshot (media : MediaStore) (timestamp_safe slot : Str)
    (value : Option Str) : Except B64Error (MediaStore × Option Str) :=
  if strTruthy value then
    match b64decode (extract_base64 (value.getD [])) with
    | Except.ok bytes =>
      Except.ok (writeFile media (mediaPath (slotFileName timestamp_safe slot)) bytes,
                 some (mediaRelDir ++ slotFileName timestamp_safe slot))
    | Except.error e => Except.error e
  else Except.ok (media, none)

/-- Submission handler (POST /log).  Returns the state after the call
together with either the success response or the caught exception; the
500 response detail is the string Error saving log followed by the
exception's message, modelled here by the exception value itself.  A
failure while processing the after slot keeps the file already written
for the before slot, as in the source. -/
def log_generation (st : ServerState) (log : GenerationLog) :
    ServerState × Except B64Error SubmitResponse :=
  let timestamp_safe := sanitizeTimestamp log.timestamp
  match saveScreenshot st.media timestamp_safe beforeKey
      (dictGet log.screenshots beforeKey) with
  | Except.error e => (st, Except.error e)
  | Except.ok (media1, beforePath) =>
    match saveScreenshot media1 timestamp_safe afterKey
        (dictGet log.screenshots afterKey) with
    | Except.error e =>
      ({ st with media := media1 }, Except.error e)
    | Except.ok (media2, afterPath) =>
      let entry : LogEntry :=
        { timestamp := log.timestamp
          designPrompt := log.designPrompt
          figmaDOM := log.figmaDOM
          descriptionAPI := log.descriptionAPI
          generationAPI := log.generationAPI
          screenshots_before := beforePath
          screenshots_after := afterPath }
      let logs2 := st.logs ++ [entry]
      ({ logs := logs2, media := media2 },
       Except.ok { status := "success".toList
                   message := "Log saved successfully".toList
                   logIndex := logs2.length - 1
                   timestamp := log.timestamp })

/-- Python slice logs[-limit:] for an arbitrary integer limit. -/
def pySuffix (l : List LogEntry) (limit : Int) : List LogEntry :=
  if limit > 0 then l.drop (l.length - limit.toNat)
  else l.drop (-limit).toNat

/-- Listing handler (GET /logs). -/
def get_logs (st : ServerState) (limit : Int) : LogsResponse :=
  { total := st.logs.length, logs := pySuffix st.logs limit }

/-! Serialization of the log file, for the JSON-array invariant. -/

def optStrJson : Option Str → Json
  | none => Json.null
  | some s => Json.str s

def entryToJson (e : LogEntry) : Json :=
  Json.obj [("timestamp".toList, Json.str e.timestamp),
            ("designPrompt".toList, Json.str e.designPrompt),
            ("figmaDOM".toList, e.figmaDOM),
            ("descriptionAPI".toList, (e.descriptionAPI).getD Json.null),
            ("generationAPI".toList, (e.generationAPI).getD Json.null),
            ("screenshots".toList,
             Json.obj [(beforeKey, optStrJson e.screenshots_before),
                       (afterKey, optStrJson e.screenshots_after)])]

/-- Shape of json.dump applied to the in-memory list of records. -/
def logFileJson (logs : List LogEntry) : Json := Json.arr (logs.map entryToJson)

def Json.isArr : Json → Bool
  | Json.arr _ => true
  | _ => false

/-! Helper lemmas about the base64 model. -/

theorem b64char_of_lt (n : Nat) (h : n < 64) :
    charIdx (b64char n) = some n ∧ b64char n ≠ '=' ∧ b64char n ≠ ',' := by
  have key : ∀ i : Fin 64,
      charIdx (b64char i.val) = some i.val ∧ b64char i.val ≠ '=' ∧
      b64char i.val ≠ ',' := by decide
  exact key ⟨n, h⟩

theorem b64char_ne_comma (n : Nat) : b64char n ≠ ',' := by
  by_cases h : n < 64
  · exact (b64char_of_lt n h).2.2
  · unfold b64char
    rw [List.getD_eq_default]
    · decide
    · have : b64Alphabet.length = 64 := by decide
      omega

theorem mem_b64encode (p : List Nat) (ch : Char) (h : ch ∈ b64encode p) :
    ch = '=' ∨ ∃ n, ch = b64char n := by
  induction p using b64encode.induct with
  | case1 => simp [b64encode] at h
  | case2 a =>
    simp only [b64encode, List.mem_cons, List.not_mem_nil, or_false] at h
    rcases h with h | h | h | h
    · exact Or.inr ⟨a / 4, h⟩
    · exact Or.inr ⟨a % 4 * 16, h⟩
    · exact Or.inl h
    · exact Or.inl h
  | case3 a b =>
    simp only [b64encode, List.mem_cons, List.not_mem_nil, or_false] at h
    rcases h with h | h | h | h
    · exact Or.inr ⟨a / 4, h⟩
    · exact Or.inr ⟨a % 4 * 16 + b / 16, h⟩
    · exact Or.inr ⟨b % 16 * 4, h⟩
    · exact Or.inl h
  | case4 a b c rest ih =>
    simp only [b64encode, List.mem_cons] at h
    rcases h with h | h | h | h | h
    · exact Or.inr ⟨a / 4, h⟩
    · exact Or.inr ⟨a % 4 * 16 + b / 16, h⟩
    · exact Or.inr ⟨b % 16 * 4 + c / 64, h⟩
    · exact Or.inr ⟨c % 64, h⟩
    · exact ih h

theorem comma_not_mem_b64encode (p : List Nat) : ',' ∉ b64encode p := by
  intro hmem
  rcases mem_b64encode p ',' hmem with h | ⟨n, h⟩
  · exact absurd h (by decide)
  · exact b64char_ne_comma n h.symm

theorem b64encode_ne_nil (p : List Nat) (hp : p ≠ []) : b64encode p ≠ [] := by
  match p with
  | [] => exact absurd rfl hp
  | [a] => simp [b64encode]
  | [a, b] => simp [b64encode]
  | a :: b :: c :: rest => simp [b64encode]

theorem b64decodeLoop_encode :
    ∀ (p : List Nat), (∀ b ∈ p, b < 256) → ∀ acc : List Nat,
      b64decodeLoop (b64encode p) 0 0 0 acc = Except.ok (acc.reverse ++ p) := by
  intro p
  induction p using b64encode.induct with
  | case1 =>
    intro _ acc
    simp [b64encode, b64decodeLoop]
  | case2 a =>
    intro hp acc
    have ha : a < 256 := hp a (by simp)
    have h0 := (b64char_of_lt (a / 4) (by omega)).1
    have h0ne := (b64char_of_lt (a / 4) (by omega)).2.1
    have h1 := (b64char_of_lt (a % 4 * 16) (by omega)).1
    have h1ne := (b64char_of_lt (a % 4 * 16) (by omega)).2.1
    have e1 : a / 4 * 4 + a % 4 = a := by omega
    simp [b64encode, b64decodeLoop, h0ne, h0, h1ne, h1, e1]
  | case3 a b =>
    intro hp acc
    have ha : a < 256 := hp a (by simp)
    have hb : b < 256 := hp b (by simp)
    have h0 := (b64char_of_lt (a / 4) (by omega)).1
    have h0ne := (b64char_of_lt (a / 4) (by omega)).2.1
    have h1 := (b64char_of_lt (a % 4 * 16 + b / 16) (by omega)).1
    have h1ne := (b64char_of_lt (a % 4 * 16 + b / 16) (by omega)).2.1
    have h2 := (b64char_of_lt (b % 16 * 4) (by omega)).1
    have h2ne := (b64char_of_lt (b % 16 * 4) (by omega)).2.1
    have e1 : a / 4 * 4 + (a % 4 * 16 + b / 16) / 16 = a := by omega
    have e2 : (a % 4 * 16 + b / 16) % 16 * 16 + b % 16 = b := by omega
    simp [b64encode, b64decodeLoop, h0ne, h0, h1ne, h1, h2ne, h2, e1, e2]
  | case4 a b c rest ih =>
    intro hp acc
    have ha : a < 256 := hp a (by simp)
    have hb : b < 256 := hp b (by simp)
    have hc : c < 256 := hp c (by simp)
    have hrest : ∀ x ∈ rest, x < 256 := fun x hx => hp x (by simp [hx])
    have h0 := (b64char_of_lt (a / 4) (by omega)).1
    have h0ne := (b64char_of_lt (a / 4) (by omega)).2.1
    have h1 := (b64char_of_lt (a % 4 * 16 + b / 16) (by omega)).1
    have h1ne := (b64char_of_lt (a % 4 * 16 + b / 16) (by omega)).2.1
    have h2 := (b64char_of_lt (b % 16 * 4 + c / 64) (by omega)).1
    have h2ne := (b64char_of_lt (b % 16 * 4 + c / 64) (by omega)).2.1
    have h3 := (b64char_of_lt (c % 64) (by omega)).1
    have h3ne := (b64char_of_lt (c % 64) (by omega)).2.1
    have e1 : a / 4 * 4 + (a % 4 * 16 + b / 16) / 16 = a := by omega
    have e2 : (a % 4 * 16 + b / 16) % 16 * 16 + (b % 16 * 4 + c / 64) / 4 = b := by
      omega
    have e3 : (b % 16 * 4 + c / 64) % 4 * 64 + c % 64 = c := by omega
    simp [b64encode, b64decodeLoop, h0ne, h0, h1ne, h1, h2ne, h2, h3ne, h3,
      e1, e2, e3, ih hrest]

/-- Round trip: decoding an encoded byte string gives it back. -/
theorem b64decode_b64encode (p : List Nat) (hp : ∀ b ∈ p, b < 256) :
    b64decode (b64encode p) = Except.ok p := by
  have h := b64decodeLoop_encode p hp []
  simpa [b64decode] using h

/-! Helper lemmas about pySplit and extract_base64. -/

theorem pySplit_ne_nil (sep : Char) (l : Str) : pySplit sep l ≠ [] := by
  match l with
  | [] => simp [pySplit]
  | c :: rest =>
    simp only [pySplit]
    split
    · simp
    · match h : pySplit sep rest with
      | [] => simp
      | h2 :: t => simp

theorem pySplit_of_not_mem (sep : Char) (l : Str) (h : sep ∉ l) :
    pySplit sep l = [l] := by
  induction l with
  | nil => rfl
  | cons c rest ih =>
    have hc : c ≠ sep := fun he => h (by simp [he])
    have hrest : sep ∉ rest := fun hm => h (by simp [hm])
    simp only [pySplit, if_neg hc, ih hrest]

theorem pySplit_append (sep : Char) (xs ys : Str) (h : sep ∉ xs) :
    pySplit sep (xs ++ sep :: ys) = xs :: pySplit sep ys := by
  induction xs with
  | nil => simp [pySplit]
  | cons c rest ih =>
    have hc : c ≠ sep := fun he => h (by simp [he])
    have hrest : sep ∉ rest := fun hm => h (by simp [hm])
    simp only [List.cons_append, pySplit, if_neg hc]
    rw [show rest.append (sep :: ys) = rest ++ sep :: ys from rfl, ih hrest]

theorem extract_base64_of_not_mem (s : Str) (h : ',' ∉ s) :
    extract_base64 s = s := by
  simp [extract_base64, h]

theorem extract_base64_data_uri (pre s : Str) (hpre : ',' ∉ pre) (hs : ',' ∉ s) :
    extract_base64 (pre ++ ',' :: s) = s := by
  have hmem : ',' ∈ pre ++ ',' :: s := by simp
  simp only [extract_base64, if_pos hmem, pySplit_append ',' pre s hpre,
    pySplit_of_not_mem ',' s hs]
  rfl

theorem pySplit_headD_takeWhile (sep : Char) (l : Str) :
    (pySplit sep l).getD 0 [] = l.takeWhile (fun c => !(c == sep)) := by
  induction l with
  | nil => rfl
  | cons c rest ih =>
    by_cases hc : c = sep
    · subst hc
      simp [pySplit, List.takeWhile]
    · have hbc : (!(c == sep)) = true := by simp [hc]
      simp only [pySplit, if_neg hc, List.takeWhile]
      rw [hbc]
      match h : pySplit sep rest with
      | [] => exact absurd h (pySplit_ne_nil sep rest)
      | h2 :: t =>
        rw [h] at ih
        simpa using ih

/-! Helper lemmas characterizing the handler branches. -/

theorem saveScreenshot_falsy (media : MediaStore) (tok slot : Str)
    (v : Option Str) (h : strTruthy v = false) :
    saveScreenshot media tok slot v = Except.ok (media, none) := by
  simp [saveScreenshot, h]

theorem saveScreenshot_some (media : MediaStore) (tok slot s : Str)
    (bytes : List Nat) (hne : s ≠ [])
    (hdec : b64decode (extract_base64 s) = Except.ok bytes) :
    saveScreenshot media tok slot (some s) =
      Except.ok (writeFile media (mediaPath (slotFileName tok slot)) bytes,
                 some (mediaRelDir ++ slotFileName tok slot)) := by
  have hsE : s.isEmpty = false := by
    cases s with
    | nil => exact absurd rfl hne
    | cons a t => rfl
  simp [saveScreenshot, strTruthy, hsE, hdec]

theorem saveScreenshot_bad (media : MediaStore) (tok slot s : Str)
    (err : B64Error) (hne : s ≠ [])
    (hdec : b64decode (extract_base64 s) = Except.error err) :
    saveScreenshot media tok slot (some s) = Except.error err := by
  have hsE : s.isEmpty = false := by
    cases s with
    | nil => exact absurd rfl hne
    | cons a t => rfl
  simp [saveScreenshot, strTruthy, hsE, hdec]

theorem log_generation_before_error (st : ServerState) (log : GenerationLog)
    (e : B64Error)
    (hb : saveScreenshot st.media (sanitizeTimestamp log.timestamp) beforeKey
        (dictGet log.screenshots beforeKey) = Except.error e) :
    log_generation st log = (st, Except.error e) := by
  simp [log_generation, hb]

theorem log_generation_after_error (st : ServerState) (log : GenerationLog)
    (media1 : MediaStore) (p1 : Option Str) (e : B64Error)
    (hb : saveScreenshot st.media (sanitizeTimestamp log.timestamp) beforeKey
        (dictGet log.screenshots beforeKey) = Except.ok (media1, p1))
    (ha : saveScreenshot media1 (sanitizeTimestamp log.timestamp) afterKey
        (dictGet log.screenshots afterKey) = Except.error e) :
    log_generation st log =
      ({ st with media := media1 }, Except.error e) := by
  simp [log_generation, hb, ha]

theorem log_generation_ok (st : ServerState) (log : GenerationLog)
    (media1 media2 : MediaStore) (p1 p2 : Option Str)
    (hb : saveScreenshot st.media (sanitizeTimestamp log.timestamp) beforeKey
        (dictGet log.screenshots beforeKey) = Except.ok (media1, p1))
    (ha : saveScreenshot media1 (sanitizeTimestamp log.timestamp) afterKey
        (dictGet log.screenshots afterKey) = Except.ok (media2, p2)) :
    log_generation st log =
      ({ logs := st.logs ++
            [{ timestamp := log.timestamp
               designPrompt := log.designPrompt
               figmaDOM := log.figmaDOM
               descriptionAPI := log.descriptionAPI
               generationAPI := log.generationAPI
               screenshots_before := p1
               screenshots_after := p2 }]
         media := media2 },
       Except.ok { status := "success".toList
                   message := "Log saved successfully".toList
                   logIndex := st.logs.length
                   timestamp := log.timestamp }) := by
  simp [log_generation, hb, ha]

/-! Concrete sample data for witnesses and counterexamples. -/

def mkEntry (ts : Str) : LogEntry :=
  { timestamp := ts
    designPrompt := "prompt".toList
    figmaDOM := Json.obj []
    descriptionAPI := none
    generationAPI := none
    screenshots_before := none
    screenshots_after := none }

def entryA : LogEntry := mkEntry "a".toList
def entryB : LogEntry := mkEntry "b".toList
def entryC : LogEntry := mkEntry "c".toList

def sampleState0 : ServerState := { logs := [], media := [] }
def sampleState1 : ServerState := { logs := [entryA], media := [] }
def sampleState3 : ServerState := { logs := [entryA, entryB, entryC], media := [] }

def ts0 : Str := "2024-01-02T03:04:05.678Z".toList
def dp0 : Str := "prompt".toList

def mkLog (shots : List (Str × Option Str)) : GenerationLog :=
  { timestamp := ts0
    designPrompt := dp0
    figmaDOM := Json.obj []
    descriptionAPI := none
    generationAPI := none
    screenshots := shots }

/-! Claim C1: behavior of GET /logs at limit zero. -/

/-- Claim C1 counterexample: on a log with one record, limit zero returns the
whole log (the Python slice logs[-0:] is logs[0:]), not an empty list,
refuting the claim that limit zero yields an empty record list. -/
theorem get_logs_zero_cex :
    (get_logs sampleState1 0).total = 1 ∧
    (get_logs sampleState1 0).logs = [entryA] ∧
    (get_logs sampleState1 0).logs ≠ [] := by
  refine ⟨rfl, rfl, ?_⟩
  intro h
  have : ([entryA] : List LogEntry) = [] := h
  simp at this

/-- Claim C1 amended: GET /logs with limit zero returns all M records of the
log together with total M, because logs[-0:] equals logs[0:]. -/
theorem get_logs_zero_returns_all (st : ServerState) :
    get_logs st 0 = { total := st.logs.length, logs := st.logs } := by
  simp [get_logs, pySuffix]

/-! Claim C4: GET /logs with a positive limit returns the suffix. -/

/-- Claim C4: for every positive limit n, GET /logs reports the full count
and returns exactly the last min n M records in stored order: the
result is the literal suffix of the log after dropping the first
M - n records. -/
theorem get_logs_limit_pos (st : ServerState) (n : Nat) (hn : 0 < n) :
    (get_logs st (n : Int)).total = st.logs.length ∧
    (get_logs st (n : Int)).logs = st.logs.drop (st.logs.length - n) ∧
    st.logs = st.logs.take (st.logs.length - n) ++ (get_logs st (n : Int)).logs ∧
    (get_logs st (n : Int)).logs.length = min n st.logs.length := by
  have hpos : (n : Int) > 0 := by exact_mod_cast hn
  have hlogs : (get_logs st (n : Int)).logs = st.logs.drop (st.logs.length - n) := by
    simp [get_logs, pySuffix, hpos]
  refine ⟨rfl, hlogs, ?_, ?_⟩
  · rw [hlogs, List.take_append_drop]
  · rw [hlogs, List.length_drop]
    omega

/-- Claim C4 witness at a three-record log and limit two. -/
theorem get_logs_limit_pos_witness :
    (get_logs sampleState3 ((2 : Nat) : Int)).total = sampleState3.logs.length ∧
    (get_logs sampleState3 ((2 : Nat) : Int)).logs =
      sampleState3.logs.drop (sampleState3.logs.length - 2) ∧
    sampleState3.logs = sampleState3.logs.take (sampleState3.logs.length - 2) ++
      (get_logs sampleState3 ((2 : Nat) : Int)).logs ∧
    (get_logs sampleState3 ((2 : Nat) : Int)).logs.length =
      min 2 sampleState3.logs.length :=
  get_logs_limit_pos sampleState3 2 (by decide)

/-! Claim C3: malformed base64 in the before slot. -/

/-- Claim C3: when the before screenshot is present, non-empty and fails to
base64-decode, the submission handler returns the error response and
the state, in particular the log file, is unchanged. -/
theorem submit_malformed_before (st : ServerState) (log : GenerationLog)
    (s : Str) (err : B64Error)
    (hb : dictGet log.screenshots beforeKey = some s)
    (hne : s ≠ [])
    (hdec : b64decode (extract_base64 s) = Except.error err) :
    log_generation st log = (st, Except.error err) ∧
    (log_generation st log).1.logs = st.logs := by
  have hsave : saveScreenshot st.media (sanitizeTimestamp log.timestamp)
      beforeKey (dictGet log.screenshots beforeKey) = Except.error err := by
    rw [hb]
    exact saveScreenshot_bad _ _ _ s err hne hdec
  have h := log_generation_before_error st log err hsave
  exact ⟨h, by rw [h]⟩

/-- Claim C3 witness: a one-character payload is rejected by the decoder and
leaves the one-record log intact. -/
theorem submit_malformed_before_witness :
    log_generation sampleState1 (mkLog [(beforeKey, some ("x".toList))]) =
      (sampleState1, Except.error B64Error.invalidLength) ∧
    (log_generation sampleState1
        (mkLog [(beforeKey, some ("x".toList))])).1.logs = sampleState1.logs :=
  submit_malformed_before sampleState1 (mkLog [(beforeKey, some ("x".toList))])
    ("x".toList) B64Error.invalidLength rfl (by decide) rfl

/-! Claim C5: submission without screenshots. -/

/-- Claim C5: when neither screenshot slot is present and non-null, the call
succeeds, the log grows by exactly one record, the new record stores
null for both screenshot slots, and the media directory is untouched. -/
theorem submit_no_screenshots (st : ServerState) (log : GenerationLog)
    (hb : strTruthy (dictGet log.screenshots beforeKey) = false)
    (ha : strTruthy (dictGet log.screenshots afterKey) = false) :
    (log_generation st log).1.logs.length = st.logs.length + 1 ∧
    (log_generation st log).1.media = st.media ∧
    ((log_generation st log).2).isOk = true ∧
    ∃ e, (log_generation st log).1.logs = st.logs ++ [e] ∧
      e.screenshots_before = none ∧ e.screenshots_after = none := by
  have h := log_generation_ok st log st.media st.media none none
    (saveScreenshot_falsy _ _ _ _ hb) (saveScreenshot_falsy _ _ _ _ ha)
  rw [h]
  refine ⟨by simp, rfl, rfl, ?_⟩
  exact ⟨_, rfl, rfl, rfl⟩

/-- Claim C5 witness: submitting with an absent before slot and an explicitly
null after slot appends one record with both paths null. -/
theorem submit_no_screenshots_witness :
    (log_generation sampleState1 (mkLog [(afterKey, none)])).1.logs.length =
      sampleState1.logs.length + 1 ∧
    (log_generation sampleState1 (mkLog [(afterKey, none)])).1.media =
      sampleState1.media ∧
    ((log_generation sampleState1 (mkLog [(afterKey, none)])).2).isOk = true ∧
    ∃ e, (log_generation sampleState1 (mkLog [(afterKey, none)])).1.logs =
        sampleState1.logs ++ [e] ∧
      e.screenshots_before = none ∧ e.screenshots_after = none :=
  submit_no_screenshots sampleState1 (mkLog [(afterKey, none)])
    (by decide) (by decide)

/-! Claim C6: successful submissions append and preserve the log. -/

/-- Claim C6: every successful submission keeps the serialized log file a
JSON array, grows the log by one record, leaves every previously stored
record unchanged at its position, and places the new record at the end,
so file order equals submission order. -/
theorem submit_success_appends (st : ServerState) (log : GenerationLog)
    (h : ((log_generation st log).2).isOk = true) :
    Json.isArr (logFileJson ((log_generation st log).1.logs)) = true ∧
    (log_generation st log).1.logs.length = st.logs.length + 1 ∧
    (∀ i, i < st.logs.length →
      ((log_generation st log).1.logs)[i]? = st.logs[i]?) ∧
    ∃ e, (log_generation st log).1.logs = st.logs ++ [e] := by
  rcases hres1 : saveScreenshot st.media (sanitizeTimestamp log.timestamp)
      beforeKey (dictGet log.screenshots beforeKey) with e1 | pr1
  · rw [log_generation_before_error st log e1 hres1] at h
    simp [Except.isOk, Except.toBool] at h
  · rcases pr1 with ⟨media1, p1⟩
    rcases hres2 : saveScreenshot media1 (sanitizeTimestamp log.timestamp)
        afterKey (dictGet log.screenshots afterKey) with e2 | pr2
    · rw [log_generation_after_error st log media1 p1 e2 hres1 hres2] at h
      simp [Except.isOk, Except.toBool] at h
    · rcases pr2 with ⟨media2, p2⟩
      rw [log_generation_ok st log media1 media2 p1 p2 hres1 hres2]
      refine ⟨rfl, by simp, ?_, ⟨_, rfl⟩⟩
      intro i hi
      exact List.getElem?_append_left hi

/-- Claim C6 witness: a screenshot-free submission on a one-record log. -/
theorem submit_success_appends_witness :
    Json.isArr (logFileJson
      ((log_generation sampleState1 (mkLog [])).1.logs)) = true ∧
    (log_generation sampleState1 (mkLog [])).1.logs.length =
      sampleState1.logs.length + 1 ∧
    (∀ i, i < sampleState1.logs.length →
      ((log_generation sampleState1 (mkLog [])).1.logs)[i]? =
        sampleState1.logs[i]?) ∧
    ∃ e, (log_generation sampleState1 (mkLog [])).1.logs =
      sampleState1.logs ++ [e] :=
  submit_success_appends sampleState1 (mkLog []) (by decide)

/-! Claim C8: shape of the success response. -/

/-- Claim C8: every successful submission responds with status success, the
echoed timestamp, and logIndex equal to the index of the appended
record: the post-append length minus one, which is the pre-append
length. -/
theorem submit_success_response (st st2 : ServerState) (log : GenerationLog)
    (r : SubmitResponse) (h : log_generation st log = (st2, Except.ok r)) :
    r.status = "success".toList ∧
    r.message = "Log saved successfully".toList ∧
    r.timestamp = log.timestamp ∧
    r.logIndex = st.logs.length ∧
    st2.logs.length = st.logs.length + 1 ∧
    r.logIndex = st2.logs.length - 1 := by
  rcases hres1 : saveScreenshot st.media (sanitizeTimestamp log.timestamp)
      beforeKey (dictGet log.screenshots beforeKey) with e1 | pr1
  · rw [log_generation_before_error st log e1 hres1] at h
    simp at h
  · rcases pr1 with ⟨media1, p1⟩
    rcases hres2 : saveScreenshot media1 (sanitizeTimestamp log.timestamp)
        afterKey (dictGet log.screenshots afterKey) with e2 | pr2
    · rw [log_generation_after_error st log media1 p1 e2 hres1 hres2] at h
      simp at h
    · rcases pr2 with ⟨media2, p2⟩
      rw [log_generation_ok st log media1 media2 p1 p2 hres1 hres2] at h
      obtain ⟨hst, hr⟩ := Prod.mk.injEq .. ▸ h
      have hr2 := Except.ok.inj hr
      subst hr2
      subst hst
      refine ⟨rfl, rfl, rfl, rfl, by simp, by simp⟩

/-- Extract the success response, with a dummy fallback. -/
def okResp : Except B64Error SubmitResponse → SubmitResponse
  | Except.ok r => r
  | Except.error _ => { status := [], message := [], logIndex := 0,
                        timestamp := [] }

/-- Claim C8 witness: the response for a screenshot-free submission on a
one-record log has status success, echoes the timestamp, and reports
index one. -/
theorem submit_success_response_witness :
    (okResp (log_generation sampleState1 (mkLog [])).2).status =
      "success".toList ∧
    (okResp (log_generation sampleState1 (mkLog [])).2).timestamp =
      (mkLog []).timestamp ∧
    (okResp (log_generation sampleState1 (mkLog [])).2).logIndex =
      sampleState1.logs.length := by
  have h := submit_success_response sampleState1
    (log_generation sampleState1 (mkLog [])).1 (mkLog [])
    (okResp (log_generation sampleState1 (mkLog [])).2) rfl
  exact ⟨h.1, h.2.2.1, h.2.2.2.1⟩

/-! Claim C7: sanitized token and image file locations. -/

/-- Sequential one-character replacements equal one simultaneous
character map, since no replacement output is another rule's input. -/
theorem sanitizeTimestamp_eq_map (ts : Str) :
    sanitizeTimestamp ts =
      (ts.map fun c =>
        if c = ':' ∨ c = '.' then '-' else if c = 'T' then '_' else c).take 19 := by
  unfold sanitizeTimestamp replaceChar
  rw [List.map_map, List.map_map]
  congr 1
  apply List.map_congr_left
  intro c hc
  by_cases h1 : c = ':'
  · subst h1; rfl
  · by_cases h2 : c = '.'
    · subst h2; rfl
    · by_cases h3 : c = 'T'
      · subst h3; rfl
      · simp [Function.comp, h1, h2, h3]

/-- Claim C7: the token is the timestamp with colons and dots replaced by
dashes and the T separator by an underscore, truncated to nineteen
characters; when both screenshots are present and decodable the handler
writes exactly the before and after image bytes at
media-dir/token-before.png and media-dir/token-after.png. -/
theorem submit_file_locations (st : ServerState) (log : GenerationLog)
    (s t : Str) (bs bt : List Nat)
    (hb : dictGet log.screenshots beforeKey = some s) (hbne : s ≠ [])
    (hdb : b64decode (extract_base64 s) = Except.ok bs)
    (ha : dictGet log.screenshots afterKey = some t) (hane : t ≠ [])
    (hda : b64decode (extract_base64 t) = Except.ok bt) :
    sanitizeTimestamp log.timestamp =
      (log.timestamp.map fun c =>
        if c = ':' ∨ c = '.' then '-' else if c = 'T' then '_' else c).take 19 ∧
    (log_generation st log).1.media =
      writeFile
        (writeFile st.media
          (mediaPath (slotFileName (sanitizeTimestamp log.timestamp) beforeKey)) bs)
        (mediaPath (slotFileName (sanitizeTimestamp log.timestamp) afterKey)) bt := by
  refine ⟨sanitizeTimestamp_eq_map log.timestamp, ?_⟩
  have hs1 : saveScreenshot st.media (sanitizeTimestamp log.timestamp)
      beforeKey (dictGet log.screenshots beforeKey) =
      Except.ok (writeFile st.media
        (mediaPath (slotFileName (sanitizeTimestamp log.timestamp) beforeKey)) bs,
        some (mediaRelDir ++ slotFileName (sanitizeTimestamp log.timestamp) beforeKey)) := by
    rw [hb]
    exact saveScreenshot_some _ _ _ s bs hbne hdb
  have hs2 : saveScreenshot
      (writeFile st.media
        (mediaPath (slotFileName (sanitizeTimestamp log.timestamp) beforeKey)) bs)
      (sanitizeTimestamp log.timestamp) afterKey
      (dictGet log.screenshots afterKey) =
      Except.ok (writeFile
        (writeFile st.media
          (mediaPath (slotFileName (sanitizeTimestamp log.timestamp) beforeKey)) bs)
        (mediaPath (slotFileName (sanitizeTimestamp log.timestamp) afterKey)) bt,
        some (mediaRelDir ++ slotFileName (sanitizeTimestamp log.timestamp) afterKey)) := by
    rw [ha]
    exact saveScreenshot_some _ _ _ t bt hane hda
  rw [log_generation_ok st log _ _ _ _ hs1 hs2]

/-- Claim C7 witness: a submission carrying the byte 65 in both slots writes
both PNG files under the sanitized token of its timestamp. -/
theorem submit_file_locations_witness :
    sanitizeTimestamp (mkLog [(beforeKey, some ("QQ==".toList)),
        (afterKey, some ("TQ==".toList))]).timestamp =
      ((mkLog [(beforeKey, some ("QQ==".toList)),
        (afterKey, some ("TQ==".toList))]).timestamp.map fun c =>
        if c = ':' ∨ c = '.' then '-' else if c = 'T' then '_' else c).take 19 ∧
    (log_generation sampleState0 (mkLog [(beforeKey, some ("QQ==".toList)),
        (afterKey, some ("TQ==".toList))])).1.media =
      writeFile
        (writeFile sampleState0.media
          (mediaPath (slotFileName (sanitizeTimestamp (mkLog [(beforeKey, some ("QQ==".toList)),
            (afterKey, some ("TQ==".toList))]).timestamp) beforeKey)) [65])
        (mediaPath (slotFileName (sanitizeTimestamp (mkLog [(beforeKey, some ("QQ==".toList)),
          (afterKey, some ("TQ==".toList))]).timestamp) afterKey)) [77] :=
  submit_file_locations sampleState0
    (mkLog [(beforeKey, some ("QQ==".toList)), (afterKey, some ("TQ==".toList))])
    ("QQ==".toList) ("TQ==".toList) [65] [77]
    rfl (by decide) rfl rfl (by decide) rfl

/-! Claim C2: which substring of the screenshot string is decoded. -/

/-- Stated from the specification's words, for comparison with
extract_base64: split once on the first comma and take everything after
it if a comma exists, else use the string as-is. -/
def splitOnceAfterCommaSpec (s : Str) : Str :=
  if ',' ∈ s then (s.dropWhile (fun c => !(c == ','))).drop 1 else s

theorem dropWhile_append_sep (sep : Char) (ys : Str) :
    ∀ xs : Str, sep ∉ xs →
      (xs ++ sep :: ys).dropWhile (fun c => !(c == sep)) = sep :: ys := by
  intro xs
  induction xs with
  | nil =>
    intro _
    simp [List.dropWhile]
  | cons c rest ih =>
    intro h
    have hc : ¬(c = sep) := fun he => h (by simp [he])
    have hrest : sep ∉ rest := fun hm => h (by simp [hm])
    simp only [List.cons_append, List.dropWhile]
    have hb : (!(c == sep)) = true := by simp [hc]
    rw [hb]
    exact ih hrest

theorem takeWhile_of_not_mem (sep : Char) (l : Str) (hl : sep ∉ l) :
    l.takeWhile (fun c => !(c == sep)) = l := by
  induction l with
  | nil => rfl
  | cons c rest ih =>
    have hc : ¬(c = sep) := fun he => hl (by simp [he])
    have hrest : sep ∉ rest := fun hm => hl (by simp [hm])
    simp only [List.takeWhile]
    have hb : (!(c == sep)) = true := by simp [hc]
    rw [hb, ih hrest]

/-- Claim C2 counterexample: on a string with two commas the code selects
only the segment between the first and the second comma, not everything
after the first comma as the claim states. -/
theorem extract_base64_cex :
    extract_base64 ("a,b,c".toList) = "b".toList ∧
    splitOnceAfterCommaSpec ("a,b,c".toList) = "b,c".toList ∧
    extract_base64 ("a,b,c".toList) ≠ splitOnceAfterCommaSpec ("a,b,c".toList) := by
  decide

/-- Claim C2 amended: with no comma the whole string is decoded; when
the string contains a comma, the decoded payload is the second field of
splitting on every comma: the text after the first comma up to the next
comma if any, so it is everything after the first comma exactly when
that remainder holds no further comma. -/
theorem extract_base64_second_field (s : Str) :
    (',' ∉ s → extract_base64 s = s) ∧
    (∀ xs ys, s = xs ++ ',' :: ys → ',' ∉ xs →
      extract_base64 s = ys.takeWhile (fun c => !(c == ',')) ∧
      (',' ∉ ys → extract_base64 s = ys ∧
        extract_base64 s = splitOnceAfterCommaSpec s)) := by
  constructor
  · exact extract_base64_of_not_mem s
  · intro xs ys hsplit hxs
    subst hsplit
    have hmem : ',' ∈ xs ++ ',' :: ys := by simp
    have hfield : extract_base64 (xs ++ ',' :: ys) =
        ys.takeWhile (fun c => !(c == ',')) := by
      simp only [extract_base64, if_pos hmem, pySplit_append ',' xs ys hxs]
      have hgd : (xs :: pySplit ',' ys).getD 1 [] = (pySplit ',' ys).getD 0 [] :=
        rfl
      rw [hgd, pySplit_headD_takeWhile]
    refine ⟨hfield, ?_⟩
    intro hys
    have hval : extract_base64 (xs ++ ',' :: ys) = ys := by
      rw [hfield, takeWhile_of_not_mem ',' ys hys]
    refine ⟨hval, ?_⟩
    rw [hval]
    simp only [splitOnceAfterCommaSpec, if_pos hmem,
      dropWhile_append_sep ',' ys xs hxs, List.drop_succ_cons, List.drop_zero]

/-- Claim C2 witness: the comma-free string QQ is used whole, and in
the one-comma string meta,QQ the selected payload is everything after
the comma, agreeing with the specification's split-once reading. -/
theorem extract_base64_second_field_witness :
    extract_base64 ("QQ".toList) = "QQ".toList ∧
    extract_base64 ("meta,QQ".toList) = "QQ".toList ∧
    extract_base64 ("meta,QQ".toList) = splitOnceAfterCommaSpec ("meta,QQ".toList) := by
  have h1 := (extract_base64_second_field ("QQ".toList)).1 (by decide)
  have h2 := ((extract_base64_second_field ("meta,QQ".toList)).2
    ("meta".toList) ("QQ".toList) (by decide) (by decide)).2 (by decide)
  exact ⟨h1, h2.1, h2.2⟩

/-! Claim C10: an empty-string screenshot slot acts like an absent one. -/

/-- Claim C10: a submission in which either screenshot slot (before or
after) is present but the empty string behaves exactly like the same
submission with that slot absent or null: the outputs coincide, and on
success the persisted record stores null for that slot. -/
theorem submit_empty_slot_as_absent (st : ServerState)
    (log1 log2 : GenerationLog)
    (hts : log1.timestamp = log2.timestamp)
    (hdp : log1.designPrompt = log2.designPrompt)
    (hdom : log1.figmaDOM = log2.figmaDOM)
    (hdesc : log1.descriptionAPI = log2.descriptionAPI)
    (hgen : log1.generationAPI = log2.generationAPI) :
    (dictGet log1.screenshots beforeKey = some [] →
      dictGet log2.screenshots beforeKey = none →
      dictGet log1.screenshots afterKey = dictGet log2.screenshots afterKey →
      log_generation st log1 = log_generation st log2 ∧
      (((log_generation st log1).2).isOk = true →
        ∃ e, (log_generation st log1).1.logs = st.logs ++ [e] ∧
          e.screenshots_before = none)) ∧
    (dictGet log1.screenshots afterKey = some [] →
      dictGet log2.screenshots afterKey = none →
      dictGet log1.screenshots beforeKey = dictGet log2.screenshots beforeKey →
      log_generation st log1 = log_generation st log2 ∧
      (((log_generation st log1).2).isOk = true →
        ∃ e, (log_generation st log1).1.logs = st.logs ++ [e] ∧
          e.screenshots_after = none)) := by
  constructor
  · intro h1 h2 hafter
    have e1 : saveScreenshot st.media (sanitizeTimestamp log1.timestamp)
        beforeKey (dictGet log1.screenshots beforeKey) =
        Except.ok (st.media, none) := by
      rw [h1]
      exact saveScreenshot_falsy _ _ _ _ rfl
    have e2 : saveScreenshot st.media (sanitizeTimestamp log2.timestamp)
        beforeKey (dictGet log2.screenshots beforeKey) =
        Except.ok (st.media, none) := by
      rw [h2]
      exact saveScreenshot_falsy _ _ _ _ rfl
    rcases hres2 : saveScreenshot st.media (sanitizeTimestamp log1.timestamp)
        afterKey (dictGet log1.screenshots afterKey) with eA | prA
    · have g1 := log_generation_after_error st log1 st.media none eA e1 hres2
      have g2 := log_generation_after_error st log2 st.media none eA e2
        (by rw [← hts, ← hafter]; exact hres2)
      rw [g1, g2]
      refine ⟨rfl, ?_⟩
      intro habs
      simp [Except.isOk, Except.toBool] at habs
    · rcases prA with ⟨mA, pA⟩
      have g1 := log_generation_ok st log1 st.media mA none pA e1 hres2
      have g2 := log_generation_ok st log2 st.media mA none pA e2
        (by rw [← hts, ← hafter]; exact hres2)
      rw [g1, g2]
      refine ⟨by simp [hts, hdp, hdom, hdesc, hgen], ?_⟩
      intro _
      exact ⟨_, rfl, rfl⟩
  · intro h1 h2 hbefore
    rcases hres1 : saveScreenshot st.media (sanitizeTimestamp log1.timestamp)
        beforeKey (dictGet log1.screenshots beforeKey) with eB | prB
    · have g1 := log_generation_before_error st log1 eB hres1
      have g2 := log_generation_before_error st log2 eB
        (by rw [← hts, ← hbefore]; exact hres1)
      rw [g1, g2]
      refine ⟨rfl, ?_⟩
      intro habs
      simp [Except.isOk, Except.toBool] at habs
    · rcases prB with ⟨m1, p1⟩
      have eA1 : saveScreenshot m1 (sanitizeTimestamp log1.timestamp) afterKey
          (dictGet log1.screenshots afterKey) = Except.ok (m1, none) := by
        rw [h1]
        exact saveScreenshot_falsy _ _ _ _ rfl
      have eA2 : saveScreenshot m1 (sanitizeTimestamp log2.timestamp) afterKey
          (dictGet log2.screenshots afterKey) = Except.ok (m1, none) := by
        rw [h2]
        exact saveScreenshot_falsy _ _ _ _ rfl
      have g1 := log_generation_ok st log1 m1 m1 p1 none hres1 eA1
      have g2 := log_generation_ok st log2 m1 m1 p1 none
        (by rw [← hts, ← hbefore]; exact hres1) eA2
      rw [g1, g2]
      refine ⟨by simp [hts, hdp, hdom, hdesc, hgen], ?_⟩
      intro _
      exact ⟨_, rfl, rfl⟩

/-- Claim C10 witness, exercising the after slot: after mapped to the
empty string versus an empty screenshots dictionary. -/
theorem submit_empty_slot_as_absent_witness :
    log_generation sampleState1 (mkLog [(afterKey, some [])]) =
      log_generation sampleState1 (mkLog []) ∧
    (((log_generation sampleState1 (mkLog [(afterKey, some [])])).2).isOk = true →
      ∃ e, (log_generation sampleState1
          (mkLog [(afterKey, some [])])).1.logs = sampleState1.logs ++ [e] ∧
        e.screenshots_after = none) :=
  (submit_empty_slot_as_absent sampleState1 (mkLog [(afterKey, some [])])
    (mkLog []) rfl rfl rfl rfl rfl).2 rfl rfl rfl

/-! Claim C9: raw base64 versus data-URI prefixed submissions. -/

theorem lookup_writeFile_self (fs : MediaStore) (n : Str) (c : List Nat) :
    (writeFile fs n c).lookup n = some c := by
  induction fs with
  | nil => simp [writeFile, List.lookup]
  | cons e fs ih =>
    obtain ⟨k, v⟩ := e
    by_cases hk : k = n
    · have hb : ((k, v).1 != n) = false := by simp [hk]
      simpa [writeFile, List.filter_cons, hb] using ih
    · have hb : ((k, v).1 != n) = true := by simp [hk]
      have hnk : (n == k) = false := by
        simp only [beq_eq_false_iff_ne]
        exact fun hh => hk hh.symm
      simpa [writeFile, List.filter_cons, hb, List.lookup, hnk] using ih

theorem lookup_writeFile_ne (fs : MediaStore) (n m : Str) (c : List Nat)
    (h : m ≠ n) : (writeFile fs n c).lookup m = fs.lookup m := by
  have hmn : (m == n) = false := by
    simp only [beq_eq_false_iff_ne]
    exact h
  induction fs with
  | nil => simp [writeFile, List.lookup, hmn]
  | cons e fs ih =>
    obtain ⟨k, v⟩ := e
    by_cases hk : k = n
    · have hb : ((k, v).1 != n) = false := by simp [hk]
      have hmk : (m == k) = false := by
        simp only [beq_eq_false_iff_ne]
        exact fun hh => h (hh.trans hk)
      simpa [writeFile, List.filter_cons, hb, List.lookup, hmk] using ih
    · have hb : ((k, v).1 != n) = true := by simp [hk]
      by_cases hmk : m = k
      · simp [writeFile, List.filter_cons, hb, List.lookup, hmk]
      · have hmkb : (m == k) = false := by
          simp only [beq_eq_false_iff_ne]
          exact hmk
        simpa [writeFile, List.filter_cons, hb, List.lookup, hmkb] using ih

theorem before_after_path_ne (tok : Str) :
    mediaPath (slotFileName tok beforeKey) ≠
      mediaPath (slotFileName tok afterKey) := by
  intro h
  have hlen := congrArg List.length h
  simp [mediaPath, pathJoin, slotFileName, beforeKey, afterKey, pngExt,
    MEDIA_DIR, LOGGER_DIR, SCRIPT_DIR] at hlen

theorem saveScreenshot_lookup_preserve (media mA : MediaStore)
    (tok slot : Str) (v pA : Option Str) (q : Str)
    (hq : q ≠ mediaPath (slotFileName tok slot))
    (h : saveScreenshot media tok slot v = Except.ok (mA, pA)) :
    mA.lookup q = media.lookup q := by
  unfold saveScreenshot at h
  by_cases hv : strTruthy v
  · rw [if_pos hv] at h
    rcases hd : b64decode (extract_base64 (v.getD [])) with _ | bytes
    · rw [hd] at h
      exact absurd h (by simp)
    · rw [hd] at h
      have hm : mA = writeFile media (mediaPath (slotFileName tok slot)) bytes := by
        have := Except.ok.inj h
        exact (Prod.mk.injEq .. ▸ this).1.symm
      rw [hm]
      exact lookup_writeFile_ne media _ q bytes hq
  · rw [if_neg hv] at h
    have hm : mA = media := by
      have := Except.ok.inj h
      exact (Prod.mk.injEq .. ▸ this).1.symm
    rw [hm]

/-- Claim C9 counterexample at the empty byte payload: its raw base64
encoding is the empty string, which is falsy, so no file is written,
while the data-URI prefixed form writes an empty file; the written
image-file contents differ. -/
theorem submit_prefix_cex :
    (log_generation sampleState0
        (mkLog [(beforeKey, some (b64encode []))])).1.media = [] ∧
    (log_generation sampleState0
        (mkLog [(beforeKey,
          some ("data:image/png;base64,".toList ++ b64encode []))])).1.media =
      [(mediaPath (slotFileName (sanitizeTimestamp ts0) beforeKey), [])] ∧
    (log_generation sampleState0
        (mkLog [(beforeKey, some (b64encode []))])).1.media ≠
      (log_generation sampleState0
        (mkLog [(beforeKey,
          some ("data:image/png;base64,".toList ++ b64encode []))])).1.media := by
  refine ⟨rfl, rfl, ?_⟩
  intro h
  have : ([] : MediaStore) =
      [(mediaPath (slotFileName (sanitizeTimestamp ts0) beforeKey), [])] := h
  simp at this

/-- Claim C9 amended: for every non-empty byte payload, submitting its raw
base64 encoding and submitting the same encoding behind a
data-image-png prefix produce identical outputs; in particular both
write the file media-dir/token-before.png with exactly the payload
bytes. -/
theorem submit_prefix_equiv (st : ServerState) (log1 log2 : GenerationLog)
    (p : List Nat) (hp : p ≠ []) (hbytes : ∀ b ∈ p, b < 256)
    (h1 : dictGet log1.screenshots beforeKey = some (b64encode p))
    (h2 : dictGet log2.screenshots beforeKey =
      some ("data:image/png;base64,".toList ++ b64encode p))
    (hafter : dictGet log1.screenshots afterKey = dictGet log2.screenshots afterKey)
    (hts : log1.timestamp = log2.timestamp)
    (hdp : log1.designPrompt = log2.designPrompt)
    (hdom : log1.figmaDOM = log2.figmaDOM)
    (hdesc : log1.descriptionAPI = log2.descriptionAPI)
    (hgen : log1.generationAPI = log2.generationAPI) :
    log_generation st log1 = log_generation st log2 ∧
    ((log_generation st log1).1.media).lookup
      (mediaPath (slotFileName (sanitizeTimestamp log1.timestamp) beforeKey)) =
      some p := by
  have hencne : b64encode p ≠ [] := b64encode_ne_nil p hp
  have hex1 : extract_base64 (b64encode p) = b64encode p :=
    extract_base64_of_not_mem _ (comma_not_mem_b64encode p)
  have hshape : ("data:image/png;base64,".toList : Str) ++ b64encode p =
      "data:image/png;base64".toList ++ ',' :: b64encode p := rfl
  have hex2 : extract_base64 ("data:image/png;base64,".toList ++ b64encode p) =
      b64encode p := by
    rw [hshape]
    exact extract_base64_data_uri _ _ (by decide) (comma_not_mem_b64encode p)
  have hdec : b64decode (b64encode p) = Except.ok p := b64decode_b64encode p hbytes
  have hsv1 : saveScreenshot st.media (sanitizeTimestamp log1.timestamp)
      beforeKey (dictGet log1.screenshots beforeKey) =
      Except.ok (writeFile st.media
        (mediaPath (slotFileName (sanitizeTimestamp log1.timestamp) beforeKey)) p,
        some (mediaRelDir ++
          slotFileName (sanitizeTimestamp log1.timestamp) beforeKey)) := by
    rw [h1]
    exact saveScreenshot_some _ _ _ _ p hencne (by rw [hex1]; exact hdec)
  have hsv2 : saveScreenshot st.media (sanitizeTimestamp log2.timestamp)
      beforeKey (dictGet log2.screenshots beforeKey) =
      Except.ok (writeFile st.media
        (mediaPath (slotFileName (sanitizeTimestamp log1.timestamp) beforeKey)) p,
        some (mediaRelDir ++
          slotFileName (sanitizeTimestamp log1.timestamp) beforeKey)) := by
    rw [h2, ← hts]
    exact saveScreenshot_some _ _ _ _ p (by simp) (by rw [hex2]; exact hdec)
  rcases hres2 : saveScreenshot
      (writeFile st.media
        (mediaPath (slotFileName (sanitizeTimestamp log1.timestamp) beforeKey)) p)
      (sanitizeTimestamp log1.timestamp) afterKey
      (dictGet log1.screenshots afterKey) with eA | prA
  · have g1 := log_generation_after_error st log1 _ _ eA hsv1 hres2
    have g2 := log_generation_after_error st log2 _ _ eA hsv2
      (by rw [← hts, ← hafter]; exact hres2)
    rw [g1, g2]
    refine ⟨rfl, ?_⟩
    exact lookup_writeFile_self st.media _ p
  · rcases prA with ⟨mA, pA⟩
    have g1 := log_generation_ok st log1 _ mA _ pA hsv1 hres2
    have g2 := log_generation_ok st log2 _ mA _ pA hsv2
      (by rw [← hts, ← hafter]; exact hres2)
    rw [g1, g2]
    constructor
    · simp [hts, hdp, hdom, hdesc, hgen]
    · have hpres := saveScreenshot_lookup_preserve _ mA
        (sanitizeTimestamp log1.timestamp) afterKey
        (dictGet log1.screenshots afterKey) pA
        (mediaPath (slotFileName (sanitizeTimestamp log1.timestamp) beforeKey))
        (before_after_path_ne _) hres2
      show mA.lookup
        (mediaPath (slotFileName (sanitizeTimestamp log1.timestamp) beforeKey)) =
        some p
      rw [hpres]
      exact lookup_writeFile_self st.media _ p

/-- Claim C9 witness: the one-byte payload 77 submitted raw and with the
data-URI prefix yield the same output and the same written file. -/
theorem submit_prefix_equiv_witness :
    log_generation sampleState0 (mkLog [(beforeKey, some (b64encode [77]))]) =
      log_generation sampleState0 (mkLog [(beforeKey,
        some ("data:image/png;base64,".toList ++ b64encode [77]))]) ∧
    ((log_generation sampleState0
        (mkLog [(beforeKey, some (b64encode [77]))])).1.media).lookup
      (mediaPath (slotFileName (sanitizeTimestamp
        (mkLog [(beforeKey, some (b64encode [77]))]).timestamp) beforeKey)) =
      some [77] :=
  submit_prefix_equiv sampleState0
    (mkLog [(beforeKey, some (b64encode [77]))])
    (mkLog [(beforeKey,
      some ("data:image/png;base64,".toList ++ b64encode [77]))])
    [77] (by decide) (by decide) rfl rfl rfl rfl rfl rfl rfl rfl
